import Mathlib

/-!
Verification of the hospital-access aggregation and proximity pipeline of
`src/app.py` (Streamlit dashboard "Hospitales Perú").

The pandas/geopandas pipeline is shallowly embedded as pure Lean functions:

* dataframes become lists of records; a dataframe column becomes a list;
* pandas cells that may be parsed as integers or kept as text are a sum type
  `PdVal`; missing cells (NaN) are `Option`;
* `astype(int)` is a fallible cast (`Option`), since Python `int()` raises on
  non-numeric text;
* geometries are finite point sets in the metric (EPSG:32718) plane, with
  meter coordinates idealized as exact integers;
  `geom.intersects(center.buffer r)` is modelled as
  "some point of the geometry lies within distance `r` of the center", with
  the buffer taken as the ideal closed disk (boundary inclusive);
* the network / file fetches of the loaders are injected as oracles indexed
  by attempt number, and a raised exception is an `Except.error` (for the
  loaders) or `none` / `Option` (for `idxmin` on an empty series).
-/

namespace HospitalsPeru

/-- A raw pandas cell for a code column (e.g. `UBIGEO`): either parsed as an
integer by the CSV/shapefile reader or kept as a string. -/
inductive PdVal where
  | intVal (n : Int)
  | strVal (s : String)
deriving DecidableEq

/-- Python `str()` on a cell value (`astype(str)`). -/
def pyStr : PdVal → String
  | .intVal n => toString n
  | .strVal s => s

/-- Value of a non-empty digit list, as `int()` reads it. -/
def digitsVal? (cs : List Char) : Option Nat :=
  if cs ≠ [] ∧ cs.all Char.isDigit then
    some (cs.foldl (fun acc c => 10 * acc + (c.toNat - 48)) 0)
  else none

/-- Python `int()` on a string: optional sign followed by digits; anything
else raises (`none`).  Models `.astype(int)` on a text column. -/
def pyInt (s : String) : Option Int :=
  match s.data with
  | '-' :: rest => (digitsVal? rest).map (fun n => -(n : Int))
  | '+' :: rest => (digitsVal? rest).map (fun n => (n : Int))
  | l => (digitsVal? l).map (fun n => (n : Int))

/-- Cast `astype(int)` on a cell that may already hold an integer. -/
def pdToInt : PdVal → Option Int
  | .intVal n => some n
  | .strVal s => pyInt s

/-- Python `str.zfill w`: left-fill with `'0'` to width `w`, keeping a
leading sign in place; strings of length at least `w` are returned
unchanged. -/
def pyZfill (s : String) (w : Nat) : String :=
  if w ≤ s.length then s
  else match s.data with
    | '-' :: rest => String.mk ('-' :: (List.replicate (w - s.length) '0' ++ rest))
    | '+' :: rest => String.mk ('+' :: (List.replicate (w - s.length) '0' ++ rest))
    | l => String.mk (List.replicate (w - s.length) '0' ++ l)

/-- One row of the IPRESS facility table, with the columns the pipeline
touches.  Coordinates and names may be missing (NaN). -/
structure FacilityRow where
  condicion : String
  norte : Option ℚ
  este : Option ℚ
  clasificacion : String
  ubigeo : PdVal
  departamento : Option String
  nombre : Option String
deriving DecidableEq

/-- Line 54: `df["Condición"] == "EN FUNCIONAMIENTO"`. -/
def condStatus (r : FacilityRow) : Bool :=
  r.condicion == "EN FUNCIONAMIENTO"

/-- Line 57: `df.dropna(subset=["NORTE", "ESTE"])`. -/
def coordsNotNull (r : FacilityRow) : Bool :=
  r.norte.isSome && r.este.isSome

/-- Line 58: `(df["NORTE"] != 0) & (df["ESTE"] != 0)` (a missing coordinate
compares as not-equal-to-0 in pandas, as it does here on `Option`). -/
def coordsNonzero (r : FacilityRow) : Bool :=
  !(r.norte == some 0) && !(r.este == some 0)

/-- Lines 61-64: the two-element hospital classification whitelist. -/
def clasifHospital (r : FacilityRow) : Bool :=
  r.clasificacion == "HOSPITALES O CLINICAS DE ATENCION GENERAL" ||
  r.clasificacion == "HOSPITALES O CLINICAS DE ATENCION ESPECIALIZADA"

/-- Lines 54-64 of `load_hospital_data`: the four sequential row filters, in
source order. -/
def hospital_filters (df : List FacilityRow) : List FacilityRow :=
  (((df.filter condStatus).filter coordsNotNull).filter coordsNonzero).filter
    clasifHospital

/-- Line 67: `df['UBIGEO'].astype(str).str.zfill(6)` on one cell. -/
def canonUbigeo (v : PdVal) : String :=
  pyZfill (pyStr v) 6

/-- Body of `load_hospital_data` after `read_csv`: filter, then canonicalize
the UBIGEO column. -/
def clean_rows (df : List FacilityRow) : List FacilityRow :=
  (hospital_filters df).map
    (fun r => { r with ubigeo := .strVal (canonUbigeo r.ubigeo) })

/-- Function `load_hospital_data`, with the HTTP fetch (plus decode and `read_csv`)
injected as an oracle over attempt numbers.  The code performs a single
`requests.get` and `raise_for_status`, so only attempt `0` is consulted and a
fetch failure propagates unchanged. -/
def load_hospital_data (fetch : Nat → Except String (List FacilityRow)) :
    Except String (List FacilityRow) :=
  match fetch 0 with
  | .error e => .error e
  | .ok rows => .ok (clean_rows rows)

/-- One row of the district shapefile after column selection and renaming:
the raw `IDDIST` code and the district polygon (as a finite point set in the
metric plane). -/
structure ShpRow where
  iddist : String
  geom : List (Int × Int)
deriving DecidableEq

/-- A district row after `astype(str).astype(int)` on the code. -/
structure MapRow where
  ubigeo : Int
  geom : List (Int × Int)
deriving DecidableEq

/-- Cast `maps['UBIGEO'].astype(str).astype(int)`: fails (raises) if any code is
not numeric text. -/
def astypeIntShp : List ShpRow → Option (List MapRow)
  | [] => some []
  | r :: rs =>
    match pyInt r.iddist, astypeIntShp rs with
    | some n, some ms => some ({ ubigeo := n, geom := r.geom } :: ms)
    | _, _ => none

/-- Function `load_district_shapefile`: clone/read (an oracle over attempt numbers,
single attempt), then cast the district code column to integers. -/
def load_district_shapefile (fetch : Nat → Except String (List ShpRow)) :
    Except String (List MapRow) :=
  match fetch 0 with
  | .error e => .error e
  | .ok rows =>
    match astypeIntShp rows with
    | some ms => .ok ms
    | none => .error "ValueError: invalid literal for int"

/-- Distinct values of a column in order of first appearance (helper for
`value_counts`); `seen` accumulates values already emitted. -/
def uniqueAux : List String → List String → List String
  | [], _ => []
  | s :: rest, seen =>
    if s ∈ seen then uniqueAux rest seen
    else s :: uniqueAux rest (s :: seen)

/-- Distinct values of a column in order of first appearance. -/
def uniqueValues (l : List String) : List String :=
  uniqueAux l []

/-- Insert a (value, count) pair into a count-descending list, after every
entry with a count at least as large. -/
def insertByCount (p : String × Nat) :
    List (String × Nat) → List (String × Nat)
  | [] => [p]
  | q :: qs => if p.2 > q.2 then p :: q :: qs else q :: insertByCount p qs

/-- Sort (value, count) pairs by descending count (insertion sort).  Pandas
sorts with an unstable quicksort, so the relative order of tied counts is
unspecified in the source; this is one deterministic refinement of it. -/
def sortByCountDesc : List (String × Nat) → List (String × Nat)
  | [] => []
  | p :: ps => insertByCount p (sortByCountDesc ps)

/-- Line 104: `df['UBIGEO'].value_counts()` — the distinct values of the
column with their multiplicities, ordered by descending count. -/
def value_counts (l : List String) : List (String × Nat) :=
  sortByCountDesc ((uniqueValues l).map (fun s => (s, l.count s)))

/-- Line 109: `tabla_freq["UBIGEO"].astype(int)`; fails (raises) on
non-numeric text. -/
def astypeIntFreq : List (String × Nat) → Option (List (Int × Nat))
  | [] => some []
  | (s, c) :: rest =>
    match pyInt s, astypeIntFreq rest with
    | some n, some fs => some ((n, c) :: fs)
    | _, _ => none

/-- Line 108: `_maps["UBIGEO"].astype(int)` on the maps code column. -/
def astypeIntCol : List PdVal → Option (List Int)
  | [] => some []
  | v :: vs =>
    match pdToInt v, astypeIntCol vs with
    | some n, some ns => some (n :: ns)
    | _, _ => none

/-- Lines 111-112 for one left key `u`: the frequency rows matching `u`, or a
single `fillna(0)` row when none matches (`pd.merge(..., how="left")`
followed by `fillna(0).astype(int)`). -/
def mergeRowsFor (freq : List (Int × Nat)) (u : Int) : List (Int × Int) :=
  match freq.filter (fun p => p.1 == u) with
  | [] => [(u, 0)]
  | ms => ms.map (fun p => (u, (p.2 : Int)))

/-- Function `create_district_dataset`: frequency table of the facility UBIGEO column,
integer cast of both code columns, left merge, `fillna(0)`.  Returns the
merged `(UBIGEO, Frecuencia)` rows together with the post-call state of the
maps code column, because line 108 assigns the cast column back into the
caller's `_maps` frame (an in-place update).  `none` models a raised
`ValueError` from either `astype(int)`. -/
def create_district_dataset (maps : List PdVal) (dfU : List String) :
    Option (List (Int × Int) × List PdVal) :=
  match astypeIntCol maps, astypeIntFreq (value_counts dfU) with
  | some mapsInt, some freqInt =>
    some ((mapsInt.map (mergeRowsFor freqInt)).flatten,
      mapsInt.map PdVal.intVal)
  | _, _ => none

/-- Function `create_department_summary`: group the facility rows by department,
count the non-null establishment names in each group (pandas `count`
skips NaN), and sort by descending count.  `groupby` drops rows whose
department is NaN and orders the group keys; that ordering only permutes
rows tied on the final descending count sort, whose tie order pandas leaves
unspecified (quicksort), so first-appearance key order is used here. -/
def create_department_summary (df : List FacilityRow) : List (String × Nat) :=
  sortByCountDesc
    ((uniqueValues (df.filterMap (fun r => r.departamento))).map
      (fun d =>
        (d, (df.filter
          (fun r => r.departamento == some d && r.nombre.isSome)).length)))

/-- One row of the population-centers layer (`CCPP`), already in the metric
frame: department, place name, position. -/
structure CCPPRow where
  dep : String
  nomPoblad : String
  pos : Int × Int
deriving DecidableEq

/-- Squared Euclidean distance in the metric plane (EPSG:32718 coordinates
in meters, idealized as exact integers). -/
def dist2 (p q : Int × Int) : Int :=
  (p.1 - q.1) * (p.1 - q.1) + (p.2 - q.2) * (p.2 - q.2)

/-- Shapely `geom.intersects(center.buffer r)` on a geometry given as a
finite point set: some point of the geometry lies within distance `r` of the
center (boundary inclusive; the buffer is the ideal closed disk). -/
def intersectsBuffer (geom : List (Int × Int)) (c : Int × Int) (r : Int) :
    Bool :=
  geom.any (fun p => decide (dist2 p c ≤ r * r))

/-- Lines 133-150 of `proximity_analysis`: restrict the population centers to
the LIMA / LORETO departments, restrict the rows of the `_maps` argument to
codes starting `15` / `16`, and count for each center the `_maps` rows whose
geometry intersects its 10 km buffer.  Both layers are reprojected to the
metric EPSG:32718 frame before buffering, so positions here are metric. -/
def proximityCounts (ccpp : List CCPPRow) (maps : List MapRow) :
    List (CCPPRow × Nat) :=
  let centros := ccpp.filter (fun c => c.dep == "LIMA" || c.dep == "LORETO")
  let hosp := maps.filter (fun m =>
    (toString m.ubigeo).take 2 == "15" || (toString m.ubigeo).take 2 == "16")
  centros.map (fun c =>
    (c, (hosp.filter (fun h => intersectsBuffer h.geom c.pos 10000)).length))

/-- Pandas `Series.idxmin` followed by `.loc`: the first row attaining the
minimal count (`idxmin` returns the first occurrence of the minimum; it
raises on an empty series, modelled by `none`). -/
def selMin : List (CCPPRow × Nat) → Option (CCPPRow × Nat)
  | [] => none
  | p :: ps =>
    match selMin ps with
    | none => some p
    | some q => if q.2 < p.2 then some q else some p

/-- Pandas `Series.idxmax` followed by `.loc`: the first row attaining the
maximal count; raises (`none`) on an empty series. -/
def selMax : List (CCPPRow × Nat) → Option (CCPPRow × Nat)
  | [] => none
  | p :: ps =>
    match selMax ps with
    | none => some p
    | some q => if q.2 > p.2 then some q else some p

/-- Lines 152-162 of `proximity_analysis`: split the counted centers by
department and select the extreme ("aislado" / "concentrado") center of each
department; an empty department partition makes `idxmin` raise, so the whole
call fails (`none`). -/
def proximity_analysis (ccpp : List CCPPRow) (maps : List MapRow) :
    Option ((CCPPRow × Nat) × (CCPPRow × Nat) × (CCPPRow × Nat) ×
      (CCPPRow × Nat)) :=
  let pcs := proximityCounts ccpp maps
  let lima := pcs.filter (fun p => p.1.dep == "LIMA")
  let loreto := pcs.filter (fun p => p.1.dep == "LORETO")
  match selMin lima, selMax lima, selMin loreto, selMax loreto with
  | some a, some b, some c, some d => some (a, b, c, d)
  | _, _, _, _ => none

/-- Lines 179-184 restricted to the district aggregation: load both sources,
then build the per-district dataset.  A load failure aborts before any
aggregation is produced. -/
def run_pipeline (fetchH : Nat → Except String (List FacilityRow))
    (fetchM : Nat → Except String (List ShpRow)) :
    Except String (List (Int × Int)) :=
  match load_hospital_data fetchH with
  | .error e => .error e
  | .ok df =>
    match load_district_shapefile fetchM with
    | .error e => .error e
    | .ok ms =>
      match create_district_dataset (ms.map (fun m => PdVal.intVal m.ubigeo))
          (df.map (fun r => pyStr r.ubigeo)) with
      | some (res, _) => .ok res
      | none => .error "ValueError: invalid literal for int"

/-- Modelled from the spec (claim C2 wording): "position is non-null and not
equal to (0,0)" as a single row predicate. -/
def specCoordPredicate (r : FacilityRow) : Bool :=
  r.norte.isSome && r.este.isSome &&
    !(r.norte == some 0 && r.este == some 0)

/-- Modelled from the spec (claim C1 wording): the number of facility
positions whose planar distance to the center is at most the radius. -/
def specProximityCount (facilities : List (Int × Int)) (c : Int × Int)
    (r : Int) : Nat :=
  (facilities.filter (fun p => decide (dist2 p c ≤ r * r))).length

/-- Modelled from the spec (claim C4 wording): plain left-padding with '0'
to a fixed width of 6 characters. -/
def specLeftPad6 (s : String) : String :=
  String.mk (List.replicate (6 - s.length) '0' ++ s.data)

/-- Number of facility codes equal to `u` once cast to an integer. -/
def matchCountI (dfU : List String) (u : Int) : Int :=
  ((dfU.filter (fun s => pyInt s == some u)).length : Int)

/-- Prepending `k` zero characters to a code string. -/
def padZeros (k : Nat) (s : String) : String :=
  String.mk (List.replicate k '0' ++ s.data)

/-! ## Claim C1 -/

/-- A Lima population center sitting at the origin of the metric frame. -/
def limaCenterAtOrigin : CCPPRow :=
  { dep := "LIMA", nomPoblad := "SAN JUAN", pos := (0, 0) }

/-- A Lima district whose polygon comes within 5 m of the origin. -/
def limaDistrictNearOrigin : MapRow :=
  { ubigeo := 150101, geom := [(3, 4)] }

/-- Claim C1: the spec says each reference center's count is the number of
facility positions within 10 km, but `proximity_analysis` is handed the
district shapefile (`maps`) as its second argument and counts the district
polygons intersecting the buffer; the facility table is never consulted.
Here one district polygon touches the buffer while no facility lies within
10 km of the center, yet the computed count is 1 (the app reports it as
"1 hospitales"). -/
theorem C1_count_is_districts_not_facilities :
    proximityCounts [limaCenterAtOrigin] [limaDistrictNearOrigin] =
      [(limaCenterAtOrigin, 1)] ∧
    specProximityCount [(100000, 100000)] limaCenterAtOrigin.pos 10000 = 0 := by
  decide

/-! ## Claim C2 -/

/-- An operating general hospital at position (0, 5): the position is
non-null and differs from (0, 0), but `NORTE` is 0. -/
def zeroNorteRow : FacilityRow :=
  { condicion := "EN FUNCIONAMIENTO", norte := some 0, este := some 5,
    clasificacion := "HOSPITALES O CLINICAS DE ATENCION GENERAL",
    ubigeo := .strVal "150101", departamento := some "LIMA",
    nombre := some "HOSPITAL A" }

/-- Claim C2 counterexample: this row satisfies the claim's three predicates
(status, position non-null and not equal to (0,0), type whitelist) yet the
code's coordinate filter `(NORTE != 0) & (ESTE != 0)` drops it, because it
requires each coordinate separately to be nonzero. -/
theorem C2_counterexample :
    condStatus zeroNorteRow = true ∧
    specCoordPredicate zeroNorteRow = true ∧
    clasifHospital zeroNorteRow = true ∧
    hospital_filters [zeroNorteRow] = [] := by
  decide

/-- Claim C2 (amended): a row appears in the filter stage's output iff it
satisfies the three independent per-row predicates with the coordinate
predicate read as "both coordinates non-null and both nonzero"; the filters
collapse to one combined predicate and may be applied in any order (shown
here for the fully reversed order; any other order is the same two
rewrites). -/
theorem C2_membership_iff_and_order_independent (df : List FacilityRow)
    (r : FacilityRow) :
    (r ∈ hospital_filters df ↔
      r ∈ df ∧ condStatus r = true ∧ coordsNotNull r = true ∧
        coordsNonzero r = true ∧ clasifHospital r = true) ∧
    hospital_filters df =
      df.filter (fun x =>
        condStatus x && coordsNotNull x && coordsNonzero x &&
          clasifHospital x) ∧
    hospital_filters df =
      (((df.filter clasifHospital).filter coordsNonzero).filter
          coordsNotNull).filter condStatus := by
  refine ⟨?_, ?_, ?_⟩
  · simp only [hospital_filters, List.mem_filter]
    tauto
  · simp only [hospital_filters, List.filter_filter]
    apply List.filter_congr
    intro x _
    cases condStatus x <;> cases coordsNotNull x <;> cases coordsNonzero x <;>
      cases clasifHospital x <;> rfl
  · simp only [hospital_filters, List.filter_filter]
    apply List.filter_congr
    intro x _
    cases condStatus x <;> cases coordsNotNull x <;> cases coordsNonzero x <;>
      cases clasifHospital x <;> rfl

/-! ## Claim C4 -/

/-- On a digit string (no sign), `zfill 6` is plain left-padding with '0' to
width 6. -/
theorem pyZfill_digit_string (s : String)
    (h : s.data.all Char.isDigit = true) :
    pyZfill s 6 = specLeftPad6 s := by
  unfold pyZfill specLeftPad6
  by_cases hle : 6 ≤ s.length
  · rw [if_pos hle, Nat.sub_eq_zero_of_le hle]
    cases s
    simp
  · rw [if_neg hle]
    split
    · rename_i rest heq
      rw [heq] at h
      simp only [List.all_cons, Bool.and_eq_true] at h
      exact absurd h.1 (by decide)
    · rename_i rest heq
      rw [heq] at h
      simp only [List.all_cons, Bool.and_eq_true] at h
      exact absurd h.1 (by decide)
    · rfl

/-- Claim C4: `UBIGEO` canonicalization is string conversion followed by
left-padding with '0' to a fixed width of 6 (stated for digit codes, which
is what administrative codes are; Python would move the padding after a
leading sign); codes of length 6 or more are returned unpadded. -/
theorem C4_canonicalize_zero_pad (v : PdVal)
    (h : (pyStr v).data.all Char.isDigit = true) :
    canonUbigeo v = specLeftPad6 (pyStr v) ∧
      (6 ≤ (pyStr v).length → canonUbigeo v = pyStr v) := by
  refine ⟨pyZfill_digit_string _ h, fun hle => ?_⟩
  unfold canonUbigeo pyZfill
  rw [if_pos hle]

/-- Witness for C4 at the spec's examples: integer 150101 canonicalizes to
"150101" and 1501 to "001501". -/
theorem C4_canonicalize_zero_pad_witness :
    canonUbigeo (PdVal.intVal 1501) = "001501" ∧
      canonUbigeo (PdVal.intVal 150101) = "150101" := by
  have h1 := C4_canonicalize_zero_pad (PdVal.intVal 1501) (by decide)
  have h2 := C4_canonicalize_zero_pad (PdVal.intVal 150101) (by decide)
  exact ⟨h1.1.trans (by decide), (h2.2 (by decide)).trans (by decide)⟩

/-! ## Claim C5 -/

/-- Selector `selMin` returns the first row attaining the minimal count: everything
strictly before it in the list has a strictly larger count, and no row has a
smaller one. -/
theorem selMin_first_min (l : List (CCPPRow × Nat)) (hne : l ≠ []) :
    ∃ l₁ c l₂, selMin l = some c ∧ l = l₁ ++ c :: l₂ ∧
      (∀ q ∈ l₁, c.2 < q.2) ∧ (∀ q ∈ l, c.2 ≤ q.2) := by
  induction l with
  | nil => exact absurd rfl hne
  | cons p ps ih =>
    by_cases hps : ps = []
    · subst hps
      exact ⟨[], p, [], rfl, rfl, by simp, by simp⟩
    · obtain ⟨l₁, c, l₂, h1, h2, h3, h4⟩ := ih hps
      by_cases hlt : c.2 < p.2
      · refine ⟨p :: l₁, c, l₂, ?_, by rw [h2]; rfl, ?_, ?_⟩
        · simp [selMin, h1, hlt]
        · intro q hq
          rcases List.mem_cons.mp hq with rfl | hq
          · exact hlt
          · exact h3 q hq
        · intro q hq
          rcases List.mem_cons.mp hq with rfl | hq
          · exact le_of_lt hlt
          · exact h4 q hq
      · refine ⟨[], p, ps, ?_, rfl, by simp, ?_⟩
        · simp [selMin, h1, hlt]
        · intro q hq
          rcases List.mem_cons.mp hq with rfl | hq
          · exact le_refl _
          · exact le_trans (Nat.not_lt.mp hlt) (h4 q hq)

/-- Selector `selMax` returns the first row attaining the maximal count. -/
theorem selMax_first_max (l : List (CCPPRow × Nat)) (hne : l ≠ []) :
    ∃ l₁ c l₂, selMax l = some c ∧ l = l₁ ++ c :: l₂ ∧
      (∀ q ∈ l₁, q.2 < c.2) ∧ (∀ q ∈ l, q.2 ≤ c.2) := by
  induction l with
  | nil => exact absurd rfl hne
  | cons p ps ih =>
    by_cases hps : ps = []
    · subst hps
      exact ⟨[], p, [], rfl, rfl, by simp, by simp⟩
    · obtain ⟨l₁, c, l₂, h1, h2, h3, h4⟩ := ih hps
      by_cases hgt : c.2 > p.2
      · refine ⟨p :: l₁, c, l₂, ?_, by rw [h2]; rfl, ?_, ?_⟩
        · simp [selMax, h1, hgt]
        · intro q hq
          rcases List.mem_cons.mp hq with rfl | hq
          · exact hgt
          · exact h3 q hq
        · intro q hq
          rcases List.mem_cons.mp hq with rfl | hq
          · exact le_of_lt hgt
          · exact h4 q hq
      · refine ⟨[], p, ps, ?_, rfl, by simp, ?_⟩
        · simp [selMax, h1, hgt]
        · intro q hq
          rcases List.mem_cons.mp hq with rfl | hq
          · exact le_refl _
          · exact le_trans (h4 q hq) (Nat.not_lt.mp hgt)

/-- Claim C5: on a nonempty department partition the Extremum Selector
returns a center attaining the minimal count ("aislado") and one attaining
the maximal count ("concentrado"), and on ties it picks the first in input
order: every row strictly before the selected one has a strictly worse
count. -/
theorem C5_extremum_first_in_input_order (pcs : List (CCPPRow × Nat))
    (dep : String)
    (hne : pcs.filter (fun p => p.1.dep == dep) ≠ []) :
    (∃ l₁ c l₂, selMin (pcs.filter (fun p => p.1.dep == dep)) = some c ∧
      pcs.filter (fun p => p.1.dep == dep) = l₁ ++ c :: l₂ ∧
      (∀ q ∈ l₁, c.2 < q.2) ∧
      (∀ q ∈ pcs.filter (fun p => p.1.dep == dep), c.2 ≤ q.2)) ∧
    (∃ l₁ c l₂, selMax (pcs.filter (fun p => p.1.dep == dep)) = some c ∧
      pcs.filter (fun p => p.1.dep == dep) = l₁ ++ c :: l₂ ∧
      (∀ q ∈ l₁, q.2 < c.2) ∧
      (∀ q ∈ pcs.filter (fun p => p.1.dep == dep), q.2 ≤ c.2)) :=
  ⟨selMin_first_min _ hne, selMax_first_max _ hne⟩

/-- A Lima center named C with count 0, appearing before A (count 0) and
B (count 5), as in the spec's tie-break example. -/
def centerC : CCPPRow := { dep := "LIMA", nomPoblad := "C", pos := (0, 0) }

/-- Second center of the tie-break example, also with count 0. -/
def centerA : CCPPRow := { dep := "LIMA", nomPoblad := "A", pos := (1, 0) }

/-- Third center of the tie-break example, with count 5. -/
def centerB : CCPPRow := { dep := "LIMA", nomPoblad := "B", pos := (2, 0) }

/-- Witness for C5 at the spec's example: among C (0), A (0), B (5) the
selector picks C as "aislado" (first of the tied minimum) and B as
"concentrado". -/
theorem C5_extremum_first_in_input_order_witness :
    (∃ l₁ c l₂,
      selMin ([(centerC, 0), (centerA, 0), (centerB, 5)].filter
        (fun p => p.1.dep == "LIMA")) = some c ∧
      [(centerC, 0), (centerA, 0), (centerB, 5)].filter
        (fun p => p.1.dep == "LIMA") = l₁ ++ c :: l₂ ∧
      (∀ q ∈ l₁, c.2 < q.2) ∧
      (∀ q ∈ [(centerC, 0), (centerA, 0), (centerB, 5)].filter
        (fun p => p.1.dep == "LIMA"), c.2 ≤ q.2)) ∧
    selMin ([(centerC, 0), (centerA, 0), (centerB, 5)].filter
      (fun p => p.1.dep == "LIMA")) = some (centerC, 0) ∧
    selMax ([(centerC, 0), (centerA, 0), (centerB, 5)].filter
      (fun p => p.1.dep == "LIMA")) = some (centerB, 5) := by
  have h := C5_extremum_first_in_input_order
    [(centerC, 0), (centerA, 0), (centerB, 5)] "LIMA" (by decide)
  exact ⟨h.1, by decide, by decide⟩

/-! ## Claim C6 -/

/-- Claim C6: a department of interest whose center partition is empty makes
the extremum lookup fail (`idxmin` raises on an empty series, modelled as
`none`), and the failure propagates: `proximity_analysis` returns no result
at all, leaving any fallback to the caller. -/
theorem C6_empty_partition_fails (ccpp : List CCPPRow) (maps : List MapRow)
    (h : (proximityCounts ccpp maps).filter (fun p => p.1.dep == "LIMA") = []
      ∨ (proximityCounts ccpp maps).filter
          (fun p => p.1.dep == "LORETO") = []) :
    proximity_analysis ccpp maps = none := by
  rcases h with h | h
  · simp only [proximity_analysis, h]
    simp [selMin]
  · simp only [proximity_analysis, h]
    cases selMin ((proximityCounts ccpp maps).filter
        (fun p => p.1.dep == "LIMA")) <;>
      cases selMax ((proximityCounts ccpp maps).filter
        (fun p => p.1.dep == "LIMA")) <;>
      simp [selMin]

/-- Witness for C6: one Lima center and no Loreto centers — the Loreto
partition is empty, so the whole analysis fails. -/
theorem C6_empty_partition_fails_witness :
    proximity_analysis [{ dep := "LIMA", nomPoblad := "X", pos := (0, 0) }]
      [] = none :=
  C6_empty_partition_fails _ _ (Or.inr (by decide))

/-! ## Claim C7 -/

/-- Claim C7: a failed source fetch (attempt 0) makes the loader fail with
that very error — no retry happens, whatever later attempts would return —
and the error propagates through the pipeline, which aborts without
producing any aggregation. -/
theorem C7_fetch_failure_aborts
    (fetchH : Nat → Except String (List FacilityRow))
    (fetchM : Nat → Except String (List ShpRow)) (e : String) :
    (fetchH 0 = .error e →
      load_hospital_data fetchH = .error e ∧
        run_pipeline fetchH fetchM = .error e) ∧
    (fetchM 0 = .error e →
      load_district_shapefile fetchM = .error e ∧
        ∀ df, fetchH 0 = .ok df → run_pipeline fetchH fetchM = .error e) := by
  constructor
  · intro h
    refine ⟨?_, ?_⟩
    · simp [load_hospital_data, h]
    · simp [run_pipeline, load_hospital_data, h]
  · intro h
    refine ⟨?_, ?_⟩
    · simp [load_district_shapefile, h]
    · intro df hdf
      simp [run_pipeline, load_hospital_data, hdf, load_district_shapefile, h]

/-- Witness for C7: a 404 on the facility CSV (with all retries answering
successfully, showing none is attempted) aborts the pipeline with that
error, and likewise a failed shapefile clone. -/
theorem C7_fetch_failure_aborts_witness :
    run_pipeline (fun n => if n == 0 then .error "HTTPError 404" else .ok [])
        (fun _ => .ok []) = .error "HTTPError 404" ∧
    run_pipeline (fun _ => .ok [])
        (fun n => if n == 0 then .error "clone failed" else .ok []) =
      .error "clone failed" := by
  constructor
  · exact ((C7_fetch_failure_aborts
      (fun n => if n == 0 then .error "HTTPError 404" else .ok [])
      (fun _ => .ok []) "HTTPError 404").1 rfl).2
  · exact (((C7_fetch_failure_aborts (fun _ => .ok [])
      (fun n => if n == 0 then .error "clone failed" else .ok [])
      "clone failed").2 rfl).2 [] rfl)

/-! ## Claim C8 -/

/-- Casting a column that already holds integers succeeds and is the
identity on the values. -/
theorem astypeIntCol_map_intVal (l : List Int) :
    astypeIntCol (l.map PdVal.intVal) = some l := by
  induction l with
  | nil => rfl
  | cons n ns ih => simp [astypeIntCol, pdToInt, ih]

/-- If every cell of the maps code column is already an integer, the cast
column written back by line 108 equals the input column. -/
theorem astypeIntCol_of_allInt (maps : List PdVal) (mi : List Int)
    (hall : ∀ v ∈ maps, ∃ n, v = PdVal.intVal n)
    (h : astypeIntCol maps = some mi) : mi.map PdVal.intVal = maps := by
  induction maps generalizing mi with
  | nil =>
    simp [astypeIntCol] at h
    subst h
    rfl
  | cons v vs ih =>
    obtain ⟨n, rfl⟩ := hall v (List.mem_cons_self v vs)
    cases hvs : astypeIntCol vs with
    | none => simp [astypeIntCol, pdToInt, hvs] at h
    | some ns =>
      simp only [astypeIntCol, pdToInt, hvs, Option.some_inj] at h
      subst h
      simp [ih ns (fun w hw => hall w (List.mem_cons_of_mem _ hw)) hvs]

/-- Claim C8: re-running `create_district_dataset` yields the identical
result.  The source writes the integer-cast code column back into the
caller's `_maps` frame (line 108), so the post-call column is returned here
explicitly: a second run on that post-call state reproduces the same
dataset and the same state (the cast is idempotent), and when the maps codes
are already integers — as `load_district_shapefile` guarantees — the write
leaves the input column unchanged. -/
theorem C8_aggregation_idempotent (maps : List PdVal) (dfU : List String)
    (res : List (Int × Int)) (maps1 : List PdVal)
    (h : create_district_dataset maps dfU = some (res, maps1)) :
    create_district_dataset maps1 dfU = some (res, maps1) ∧
      ((∀ v ∈ maps, ∃ n, v = PdVal.intVal n) → maps1 = maps) := by
  cases hA : astypeIntCol maps with
  | none => simp [create_district_dataset, hA] at h
  | some mi =>
    cases hF : astypeIntFreq (value_counts dfU) with
    | none => simp [create_district_dataset, hA, hF] at h
    | some fi =>
      simp only [create_district_dataset, hA, hF, Option.some_inj] at h
      obtain ⟨hres, hm1⟩ := Prod.mk.injEq .. ▸ h
      constructor
      · rw [← hm1]
        simp [create_district_dataset, astypeIntCol_map_intVal, hF, hres,
          ← hm1]
      · intro hall
        rw [← hm1]
        exact astypeIntCol_of_allInt maps mi hall hA

/-- Witness for C8: a non-canonical (string) code column is cast in place;
the theorem applied to the first run shows the second run on the post-call
state returns the identical dataset and state. -/
theorem C8_aggregation_idempotent_witness :
    create_district_dataset [PdVal.intVal 150101] ["150101"] =
      some ([(150101, 1)], [PdVal.intVal 150101]) := by
  have h0 : create_district_dataset [PdVal.strVal "150101"] ["150101"] =
      some ([(150101, 1)], [PdVal.intVal 150101]) := by decide
  exact (C8_aggregation_idempotent _ _ _ _ h0).1

/-! ## Claim C10 -/

/-- Membership in `uniqueAux`: the values of the column not already seen. -/
theorem mem_uniqueAux (l : List String) :
    ∀ (seen : List String) (x : String),
      x ∈ uniqueAux l seen ↔ x ∈ l ∧ x ∉ seen := by
  induction l with
  | nil =>
    intro seen x
    simp [uniqueAux]
  | cons s rest ih =>
    intro seen x
    by_cases hs : s ∈ seen
    · rw [uniqueAux, if_pos hs, ih]
      constructor
      · rintro ⟨hx, hns⟩
        exact ⟨List.mem_cons_of_mem _ hx, hns⟩
      · rintro ⟨hx, hns⟩
        rcases List.mem_cons.mp hx with rfl | hx
        · exact absurd hs hns
        · exact ⟨hx, hns⟩
    · rw [uniqueAux, if_neg hs]
      constructor
      · intro hx
        rcases List.mem_cons.mp hx with rfl | hx
        · exact ⟨List.mem_cons_self _ _, hs⟩
        · obtain ⟨h1, h2⟩ := (ih _ _).mp hx
          exact ⟨List.mem_cons_of_mem _ h1,
            fun hc => h2 (List.mem_cons_of_mem _ hc)⟩
      · rintro ⟨hx, hns⟩
        by_cases hxs : x = s
        · exact hxs ▸ List.mem_cons_self _ _
        · rcases List.mem_cons.mp hx with rfl | hx
          · exact absurd rfl hxs
          · refine List.mem_cons_of_mem _ ((ih _ _).mpr ⟨hx, ?_⟩)
            intro hc
            rcases List.mem_cons.mp hc with rfl | hc
            · exact hxs rfl
            · exact hns hc

/-- Deduplication `uniqueAux` emits no duplicates. -/
theorem nodup_uniqueAux (l : List String) :
    ∀ seen : List String, (uniqueAux l seen).Nodup := by
  induction l with
  | nil =>
    intro seen
    simp [uniqueAux]
  | cons s rest ih =>
    intro seen
    by_cases hs : s ∈ seen
    · rw [uniqueAux, if_pos hs]
      exact ih seen
    · rw [uniqueAux, if_neg hs]
      refine List.Nodup.cons ?_ (ih _)
      intro hc
      exact ((mem_uniqueAux rest _ s).mp hc).2 (List.mem_cons_self _ _)

/-- The distinct values of a column are exactly its values. -/
theorem mem_uniqueValues (l : List String) (x : String) :
    x ∈ uniqueValues l ↔ x ∈ l := by
  rw [uniqueValues, mem_uniqueAux]
  simp

/-- The distinct values of a column form a duplicate-free list. -/
theorem nodup_uniqueValues (l : List String) : (uniqueValues l).Nodup :=
  nodup_uniqueAux l []

/-- Members of an insertion are the inserted pair or members of the list. -/
theorem mem_insertByCount (p x : String × Nat) :
    ∀ l, x ∈ insertByCount p l ↔ x = p ∨ x ∈ l := by
  intro l
  induction l with
  | nil => simp [insertByCount]
  | cons q qs ih =>
    rw [insertByCount]
    by_cases h : p.2 > q.2
    · rw [if_pos h]
      simp [List.mem_cons]
    · rw [if_neg h]
      simp only [List.mem_cons, ih]
      tauto

/-- Inserting permutes with consing. -/
theorem insertByCount_perm (p : String × Nat) :
    ∀ l, List.Perm (insertByCount p l) (p :: l) := by
  intro l
  induction l with
  | nil => simp [insertByCount]
  | cons q qs ih =>
    rw [insertByCount]
    by_cases h : p.2 > q.2
    · rw [if_pos h]
    · rw [if_neg h]
      exact (ih.cons q).trans (List.Perm.swap p q qs)

/-- The descending count sort permutes its input. -/
theorem sortByCountDesc_perm : ∀ l, List.Perm (sortByCountDesc l) l := by
  intro l
  induction l with
  | nil => rfl
  | cons p ps ih =>
    rw [sortByCountDesc]
    exact (insertByCount_perm p (sortByCountDesc ps)).trans (ih.cons p)

/-- Insertion preserves the count-descending order. -/
theorem pairwise_insertByCount (p : String × Nat) :
    ∀ l, l.Pairwise (fun a b => b.2 ≤ a.2) →
      (insertByCount p l).Pairwise (fun a b => b.2 ≤ a.2) := by
  intro l
  induction l with
  | nil =>
    intro _
    simp [insertByCount]
  | cons q qs ih =>
    intro hp
    rw [insertByCount]
    by_cases h : p.2 > q.2
    · rw [if_pos h]
      refine List.Pairwise.cons ?_ hp
      intro b hb
      rcases List.mem_cons.mp hb with rfl | hb
      · exact le_of_lt h
      · exact le_trans ((List.pairwise_cons.mp hp).1 b hb) (le_of_lt h)
    · rw [if_neg h]
      refine List.Pairwise.cons ?_ (ih (List.pairwise_cons.mp hp).2)
      intro b hb
      rcases (mem_insertByCount p b qs).mp hb with rfl | hb
      · exact Nat.not_lt.mp h
      · exact (List.pairwise_cons.mp hp).1 b hb

/-- The sort output is ordered by non-increasing count. -/
theorem pairwise_sortByCountDesc (l : List (String × Nat)) :
    (sortByCountDesc l).Pairwise (fun a b => b.2 ≤ a.2) := by
  induction l with
  | nil => simp [sortByCountDesc]
  | cons p ps ih =>
    rw [sortByCountDesc]
    exact pairwise_insertByCount p _ ih

/-- In a count-descending list the head attains the maximal count. -/
theorem pairwise_head_max (l : List (String × Nat))
    (hp : l.Pairwise (fun a b => b.2 ≤ a.2)) (h : l ≠ []) :
    ∀ p ∈ l, p.2 ≤ (l.head h).2 := by
  cases l with
  | nil => exact absurd rfl h
  | cons a t =>
    intro p hmem
    rcases List.mem_cons.mp hmem with rfl | hmem
    · exact le_refl _
    · exact (List.pairwise_cons.mp hp).1 p hmem

/-- In a count-descending list the last element attains the minimal count. -/
theorem pairwise_getLast_min :
    ∀ (l : List (String × Nat)), l.Pairwise (fun a b => b.2 ≤ a.2) →
      ∀ (h : l ≠ []) p, p ∈ l → (l.getLast h).2 ≤ p.2 := by
  intro l
  induction l with
  | nil =>
    intro _ h
    exact absurd rfl h
  | cons a t ih =>
    intro hp h p hmem
    by_cases ht : t = []
    · subst ht
      simp only [List.mem_singleton] at hmem
      subst hmem
      exact le_refl _
    · rw [List.getLast_cons ht]
      rcases List.mem_cons.mp hmem with rfl | hmem
      · exact (List.pairwise_cons.mp hp).1 _ (List.getLast_mem ht)
      · exact ih (List.pairwise_cons.mp hp).2 ht p hmem

/-- A facility row in Lima whose establishment name is missing (NaN). -/
def unnamedLimaRow : FacilityRow :=
  { condicion := "EN FUNCIONAMIENTO", norte := some 1, este := some 1,
    clasificacion := "HOSPITALES O CLINICAS DE ATENCION GENERAL",
    ubigeo := .strVal "150101", departamento := some "LIMA",
    nombre := none }

/-- Claim C10 counterexample: a department with one facility row whose name
cell is missing is reported with count 0, not with the count (1) of its
facility rows — the pandas `count` aggregation on the name column skips
NaN. -/
theorem C10_counterexample :
    create_department_summary [unnamedLimaRow] = [("LIMA", 0)] ∧
    ([unnamedLimaRow].filter
      (fun r => r.departamento == some "LIMA")).length = 1 := by
  decide

/-- Claim C10 (amended): the summary lists every department value exactly
once, paired with the number of its rows that carry a non-null establishment
name; rows are ordered by non-increasing count, so the head attains the
maximum and the last row the minimum. -/
theorem C10_department_summary (df : List FacilityRow) :
    ((create_department_summary df).map Prod.fst).Nodup ∧
    (∀ d : String, d ∈ (create_department_summary df).map Prod.fst ↔
      some d ∈ df.map (fun r => r.departamento)) ∧
    (∀ p ∈ create_department_summary df,
      p.2 = (df.filter
        (fun r => r.departamento == some p.1 && r.nombre.isSome)).length) ∧
    (create_department_summary df).Pairwise (fun p q => q.2 ≤ p.2) ∧
    (∀ h : create_department_summary df ≠ [],
      ∀ p ∈ create_department_summary df,
        p.2 ≤ ((create_department_summary df).head h).2 ∧
        ((create_department_summary df).getLast h).2 ≤ p.2) := by
  have hperm : List.Perm (create_department_summary df)
      ((uniqueValues (df.filterMap (fun r => r.departamento))).map
        (fun d => (d, (df.filter
          (fun r => r.departamento == some d && r.nombre.isSome)).length))) :=
    sortByCountDesc_perm _
  have hsorted : (create_department_summary df).Pairwise
      (fun p q => q.2 ≤ p.2) := by
    unfold create_department_summary
    exact pairwise_sortByCountDesc _
  refine ⟨?_, ?_, ?_, hsorted, ?_⟩
  · refine (hperm.map Prod.fst).nodup_iff.mpr ?_
    rw [List.map_map]
    have : (Prod.fst ∘ fun d => (d, (df.filter
        (fun r => r.departamento == some d && r.nombre.isSome)).length)) =
        id := rfl
    rw [this, List.map_id]
    exact nodup_uniqueValues _
  · intro d
    rw [List.mem_map]
    constructor
    · rintro ⟨p, hp, rfl⟩
      have hp' := hperm.mem_iff.mp hp
      obtain ⟨a, ha, rfl⟩ := List.mem_map.mp hp'
      rw [List.mem_map]
      obtain ⟨r, hr, hra⟩ :=
        List.mem_filterMap.mp ((mem_uniqueValues _ _).mp ha)
      exact ⟨r, hr, hra ▸ rfl⟩
    · rintro hd
      obtain ⟨r, hr, hra⟩ := List.mem_map.mp hd
      have ha : d ∈ uniqueValues (df.filterMap (fun r => r.departamento)) :=
        (mem_uniqueValues _ _).mpr (List.mem_filterMap.mpr ⟨r, hr, hra⟩)
      exact ⟨_, hperm.mem_iff.mpr (List.mem_map.mpr ⟨d, ha, rfl⟩), rfl⟩
  · intro p hp
    obtain ⟨a, _, rfl⟩ := List.mem_map.mp (hperm.mem_iff.mp hp)
    rfl
  · intro h p hp
    exact ⟨pairwise_head_max _ hsorted h p hp,
      pairwise_getLast_min _ hsorted h p hp⟩

/-! ## Claim C3 -/

/-- The frequency table lists exactly the column's values, paired with their
multiplicities. -/
theorem mem_value_counts (l : List String) (p : String × Nat) :
    p ∈ value_counts l ↔ p.1 ∈ l ∧ p.2 = l.count p.1 := by
  rw [value_counts, (sortByCountDesc_perm _).mem_iff, List.mem_map]
  constructor
  · rintro ⟨s, hs, rfl⟩
    exact ⟨(mem_uniqueValues _ _).mp hs, rfl⟩
  · rintro ⟨h1, h2⟩
    refine ⟨p.1, (mem_uniqueValues _ _).mpr h1, ?_⟩
    rw [← h2]

/-- The keys of the frequency table are duplicate-free. -/
theorem nodup_keys_value_counts (l : List String) :
    ((value_counts l).map Prod.fst).Nodup := by
  refine (((sortByCountDesc_perm _).map Prod.fst).nodup_iff).mpr ?_
  rw [List.map_map]
  have h : (Prod.fst ∘ fun s => (s, l.count s)) = id := rfl
  rw [h, List.map_id]
  exact nodup_uniqueValues l

/-- The integer cast of the frequency table succeeds when every key is
numeric. -/
theorem astypeIntFreq_isSome (fl : List (String × Nat))
    (hp : ∀ p ∈ fl, (pyInt p.1).isSome) :
    ∃ fi, astypeIntFreq fl = some fi := by
  induction fl with
  | nil => exact ⟨[], rfl⟩
  | cons p ps ih =>
    obtain ⟨n, hn⟩ := Option.isSome_iff_exists.mp
      (hp p (List.mem_cons_self p ps))
    obtain ⟨fi, hfi⟩ := ih (fun q hq => hp q (List.mem_cons_of_mem _ hq))
    obtain ⟨s, c⟩ := p
    exact ⟨(n, c) :: fi, by simp [astypeIntFreq, hn, hfi]⟩

/-- Membership in the integer-cast frequency table. -/
theorem mem_astypeIntFreq (fl : List (String × Nat)) :
    ∀ fi, astypeIntFreq fl = some fi → ∀ q : Int × Nat,
      (q ∈ fi ↔ ∃ p ∈ fl, pyInt p.1 = some q.1 ∧ p.2 = q.2) := by
  induction fl with
  | nil =>
    intro fi h q
    simp only [astypeIntFreq, Option.some_inj] at h
    subst h
    simp
  | cons p ps ih =>
    intro fi h q
    obtain ⟨s, c⟩ := p
    cases hpy : pyInt s with
    | none => simp [astypeIntFreq, hpy] at h
    | some n =>
      cases hps : astypeIntFreq ps with
      | none => simp [astypeIntFreq, hpy, hps] at h
      | some fs =>
        simp only [astypeIntFreq, hpy, hps, Option.some_inj] at h
        subst h
        simp only [List.mem_cons, ih fs hps]
        constructor
        · rintro (rfl | ⟨p', hp', h1, h2⟩)
          · exact ⟨(s, c), Or.inl rfl, hpy, rfl⟩
          · exact ⟨p', Or.inr hp', h1, h2⟩
        · rintro ⟨p', hp'm, h1, h2⟩
          rcases hp'm with rfl | hp'm
          · left
            exact Prod.ext
              ((Option.some_inj.mp (hpy.symm.trans h1)).symm) h2.symm
          · exact Or.inr ⟨p', hp'm, h1, h2⟩

/-- The integer cast keeps the keys duplicate-free when distinct keys have
distinct integer values. -/
theorem nodup_keys_astypeIntFreq (fl : List (String × Nat)) :
    ∀ fi, astypeIntFreq fl = some fi →
      fl.Pairwise (fun p q => pyInt p.1 ≠ pyInt q.1) →
      (fi.map Prod.fst).Nodup := by
  induction fl with
  | nil =>
    intro fi h _
    simp only [astypeIntFreq, Option.some_inj] at h
    subst h
    simp
  | cons p ps ih =>
    intro fi h hpw
    obtain ⟨s, c⟩ := p
    cases hpy : pyInt s with
    | none => simp [astypeIntFreq, hpy] at h
    | some n =>
      cases hps : astypeIntFreq ps with
      | none => simp [astypeIntFreq, hpy, hps] at h
      | some fs =>
        simp only [astypeIntFreq, hpy, hps, Option.some_inj] at h
        subst h
        rw [List.map_cons]
        refine List.Nodup.cons ?_
          (ih fs hps (List.pairwise_cons.mp hpw).2)
        intro hc
        obtain ⟨q, hq, hq1⟩ := List.mem_map.mp hc
        obtain ⟨p', hp', h1, _⟩ := (mem_astypeIntFreq ps fs hps q).mp hq
        have hne := (List.pairwise_cons.mp hpw).1 p' hp'
        rw [hpy, h1, hq1] at hne
        exact hne rfl

/-- Filtering a duplicate-free-keyed table by the key of one of its rows
returns exactly that row. -/
theorem filter_key_of_nodup (fi : List (Int × Nat))
    (hnd : (fi.map Prod.fst).Nodup) (q : Int × Nat) (hq : q ∈ fi) :
    fi.filter (fun p => p.1 == q.1) = [q] := by
  induction fi with
  | nil => exact absurd hq (List.not_mem_nil q)
  | cons r rs ih =>
    rw [List.map_cons] at hnd
    have hnd' := List.nodup_cons.mp hnd
    rcases List.mem_cons.mp hq with rfl | hq'
    · rw [List.filter_cons_of_pos (by simp)]
      have : rs.filter (fun p => p.1 == q.1) = [] := by
        rw [List.filter_eq_nil_iff]
        intro p hp hc
        exact hnd'.1 (List.mem_map.mpr
          ⟨p, hp, by simpa using (beq_iff_eq ..).mp (by simpa using hc)⟩)
      rw [this]
    · rw [List.filter_cons_of_neg, ih hnd'.2 hq']
      simp only [beq_iff_eq]
      intro hc
      exact hnd'.1 (List.mem_map.mpr ⟨q, hq', hc.symm⟩)

/-- Singleton lists of pairs flatten back to a map. -/
theorem flatten_map_singleton (l : List Int) (g : Int → Int × Int) :
    (l.map (fun u => [g u])).flatten = l.map g := by
  induction l with
  | nil => rfl
  | cons a t ih => simp [ih]

/-- Core of the left join: with numeric, integer-injective facility codes,
the merge row group of every map key `u` is the single row carrying the
number of facility codes whose integer value is `u` (0 when none is,
thanks to `fillna`). -/
theorem mergeRowsFor_eq (dfU : List String) (fi : List (Int × Nat))
    (hfi : astypeIntFreq (value_counts dfU) = some fi)
    (hinj : ∀ s ∈ dfU, ∀ t ∈ dfU, pyInt s = pyInt t → s = t) (u : Int) :
    mergeRowsFor fi u = [(u, matchCountI dfU u)] := by
  have hmem := mem_astypeIntFreq (value_counts dfU) fi hfi
  by_cases hex : ∃ s ∈ dfU, pyInt s = some u
  · obtain ⟨s0, hs0, hpy0⟩ := hex
    have hq : (u, dfU.count s0) ∈ fi :=
      (hmem (u, dfU.count s0)).mpr
        ⟨(s0, dfU.count s0), (mem_value_counts dfU _).mpr ⟨hs0, rfl⟩,
          hpy0, rfl⟩
    have hnd : (fi.map Prod.fst).Nodup := by
      refine nodup_keys_astypeIntFreq _ fi hfi ?_
      have h1 : ((value_counts dfU).map Prod.fst).Nodup :=
        nodup_keys_value_counts dfU
      have h2 : (value_counts dfU).Pairwise (fun a b => a.1 ≠ b.1) :=
        List.pairwise_map.mp h1
      refine List.Pairwise.imp_of_mem ?_ h2
      intro a b ha hb hne heq
      exact hne (hinj a.1 ((mem_value_counts dfU a).mp ha).1
        b.1 ((mem_value_counts dfU b).mp hb).1 heq)
    have hfilter : fi.filter (fun p => p.1 == u) = [(u, dfU.count s0)] := by
      simpa using filter_key_of_nodup fi hnd _ hq
    have hfc : dfU.filter (fun s => pyInt s == some u) =
        dfU.filter (fun x => x == s0) := by
      apply List.filter_congr
      intro x hx
      by_cases hxs : x = s0
      · subst hxs
        simp [hpy0]
      · have h1 : (x == s0) = false := by simp [hxs]
        rw [h1, beq_eq_false_iff_ne]
        intro hpx
        exact hxs (hinj x hx s0 hs0 (hpx.trans hpy0.symm))
    have hlen : (dfU.filter (fun x => x == s0)).length = dfU.count s0 := by
      rw [List.count_eq_countP, List.countP_eq_length_filter]
    have hcnt : matchCountI dfU u = (dfU.count s0 : Int) := by
      rw [matchCountI, hfc, hlen]
    rw [mergeRowsFor, hfilter, hcnt]
    rfl
  · push_neg at hex
    have hfilter : fi.filter (fun p => p.1 == u) = [] := by
      rw [List.filter_eq_nil_iff]
      intro p hp hc
      obtain ⟨p', hp', h1, _⟩ := (hmem p).mp hp
      have hs' := ((mem_value_counts dfU p').mp hp').1
      have : pyInt p'.1 = some u := by
        rw [h1]
        congr 1
        exact (beq_iff_eq ..).mp (by simpa using hc)
      exact hex p'.1 hs' this
    have hcnt : matchCountI dfU u = 0 := by
      rw [matchCountI]
      have : dfU.filter (fun s => pyInt s == some u) = [] := by
        rw [List.filter_eq_nil_iff]
        intro s hs hc
        exact hex s hs ((beq_iff_eq ..).mp (by simpa using hc))
      rw [this]
      rfl
    rw [mergeRowsFor, hfilter, hcnt]

/-- Claim C3 counterexample: two facility codes that differ only by a
leading zero ("150101" and "0150101") collapse to the same integer 150101,
so the left merge matches the district key 150101 against two frequency
rows and the key appears twice in the dataset instead of exactly once. -/
theorem C3_counterexample :
    create_district_dataset [PdVal.intVal 150101] ["150101", "0150101"] =
      some ([(150101, 1), (150101, 1)], [PdVal.intVal 150101]) := by
  decide

/-- Claim C3 (amended): when the polygon keys are distinct and distinct
facility code strings keep distinct integer values (true of canonical
6-digit codes), each region key appears exactly once, in polygon order,
with the count of facility codes equal to it as an integer — 0, not a
dropped row, when nothing matches — and every count is nonnegative. -/
theorem C3_left_join_completeness (maps : List Int) (dfU : List String)
    (hnd : maps.Nodup)
    (hparse : ∀ s ∈ dfU, (pyInt s).isSome)
    (hinj : ∀ s ∈ dfU, ∀ t ∈ dfU, pyInt s = pyInt t → s = t) :
    create_district_dataset (maps.map PdVal.intVal) dfU =
      some (maps.map (fun u => (u, matchCountI dfU u)),
        maps.map PdVal.intVal) ∧
    ((maps.map (fun u => (u, matchCountI dfU u))).map Prod.fst).Nodup ∧
    ∀ u : Int, 0 ≤ matchCountI dfU u := by
  have hparseF : ∀ p ∈ value_counts dfU, (pyInt p.1).isSome := fun p hp =>
    hparse p.1 ((mem_value_counts dfU p).mp hp).1
  obtain ⟨fi, hfi⟩ := astypeIntFreq_isSome _ hparseF
  refine ⟨?_, ?_, ?_⟩
  · simp only [create_district_dataset, astypeIntCol_map_intVal, hfi]
    have hrows : maps.map (mergeRowsFor fi) =
        maps.map (fun u => [(u, matchCountI dfU u)]) :=
      List.map_congr_left (fun u _ => mergeRowsFor_eq dfU fi hfi hinj u)
    rw [hrows, flatten_map_singleton]
  · rw [List.map_map]
    have h : (Prod.fst ∘ fun u => (u, matchCountI dfU u)) = id := rfl
    rw [h, List.map_id]
    exact hnd
  · intro u
    rw [matchCountI]
    exact Int.natCast_nonneg _

/-- Witness for C3 at the spec's example: facility codes "150101",
"150101", "160101" against polygons 150101, 150102, 160101 give the
dataset 150101 ↦ 2, 150102 ↦ 0, 160101 ↦ 1. -/
theorem C3_left_join_completeness_witness :
    create_district_dataset
        ([150101, 150102, 160101].map PdVal.intVal)
        ["150101", "150101", "160101"] =
      some ([(150101, 2), (150102, 0), (160101, 1)],
        [150101, 150102, 160101].map PdVal.intVal) := by
  have h := C3_left_join_completeness [150101, 150102, 160101]
    ["150101", "150101", "160101"] (by decide) (by decide) (by decide)
  exact h.1.trans (by decide)

/-- First Lima row of the summary example, with a name. -/
def limaRowH1 : FacilityRow :=
  { condicion := "EN FUNCIONAMIENTO", norte := some 1, este := some 1,
    clasificacion := "HOSPITALES O CLINICAS DE ATENCION GENERAL",
    ubigeo := .strVal "150101", departamento := some "LIMA",
    nombre := some "H1" }

/-- Second Lima row of the summary example. -/
def limaRowH2 : FacilityRow :=
  { condicion := "EN FUNCIONAMIENTO", norte := some 1, este := some 1,
    clasificacion := "HOSPITALES O CLINICAS DE ATENCION GENERAL",
    ubigeo := .strVal "150101", departamento := some "LIMA",
    nombre := some "H2" }

/-- Loreto row of the summary example. -/
def loretoRowH3 : FacilityRow :=
  { condicion := "EN FUNCIONAMIENTO", norte := some 1, este := some 1,
    clasificacion := "HOSPITALES O CLINICAS DE ATENCION GENERAL",
    ubigeo := .strVal "160101", departamento := some "LORETO",
    nombre := some "H3" }

/-- Witness for C10: two named Lima rows and one named Loreto row give the
summary LIMA ↦ 2 before LORETO ↦ 1, and the theorem yields that the last
row's count is minimal. -/
theorem C10_department_summary_witness :
    create_department_summary [limaRowH1, limaRowH2, loretoRowH3] =
      [("LIMA", 2), ("LORETO", 1)] ∧
    ((create_department_summary [limaRowH1, limaRowH2, loretoRowH3]).getLast
      (by decide)).2 ≤ 1 := by
  refine ⟨by decide, ?_⟩
  exact ((C10_department_summary [limaRowH1, limaRowH2, loretoRowH3]).2.2.2.2
    (by decide) ("LORETO", 1) (by decide)).2

/-! ## Claim C9 -/

/-- Python `int()` on an all-digit string is the digits value (no sign branch). -/
theorem pyInt_of_digits (s : String)
    (h : s.data.all Char.isDigit = true) :
    pyInt s = (digitsVal? s.data).map (fun n => (n : Int)) := by
  unfold pyInt
  split
  · rename_i rest heq
    rw [heq] at h
    simp only [List.all_cons, Bool.and_eq_true] at h
    exact absurd h.1 (by decide)
  · rename_i rest heq
    rw [heq] at h
    simp only [List.all_cons, Bool.and_eq_true] at h
    exact absurd h.1 (by decide)
  · rfl

/-- A run of zero characters is all digits. -/
theorem all_isDigit_replicate_zero (k : Nat) :
    (List.replicate k '0').all Char.isDigit = true := by
  induction k with
  | zero => rfl
  | succ k ih =>
    rw [List.replicate_succ, List.all_cons, ih]
    rfl

/-- Leading zeros do not change the accumulated digits value. -/
theorem foldl_digits_replicate_zero (k : Nat) (cs : List Char) :
    (List.replicate k '0' ++ cs).foldl
        (fun acc c => 10 * acc + (c.toNat - 48)) 0 =
      cs.foldl (fun acc c => 10 * acc + (c.toNat - 48)) 0 := by
  induction k with
  | zero => rfl
  | succ k ih =>
    rw [List.replicate_succ, List.cons_append, List.foldl_cons]
    exact ih

/-- Leading zeros do not change the value `int()` reads from digits. -/
theorem digitsVal?_replicate_zero (k : Nat) (cs : List Char)
    (h1 : cs ≠ []) (h2 : cs.all Char.isDigit = true) :
    digitsVal? (List.replicate k '0' ++ cs) = digitsVal? cs := by
  have hall : (List.replicate k '0' ++ cs).all Char.isDigit = true := by
    rw [List.all_append, h2, all_isDigit_replicate_zero]
    rfl
  have hne : List.replicate k '0' ++ cs ≠ [] := by
    simp [h1]
  unfold digitsVal?
  rw [if_pos ⟨hne, hall⟩, if_pos ⟨h1, h2⟩, foldl_digits_replicate_zero]

/-- Zero-padding preserves `int()` on non-empty digit strings. -/
theorem pyInt_padZeros (k : Nat) (s : String) (h1 : s.data ≠ [])
    (h2 : s.data.all Char.isDigit = true) :
    pyInt (padZeros k s) = pyInt s := by
  have hdata : (padZeros k s).data = List.replicate k '0' ++ s.data := rfl
  have hall : (padZeros k s).data.all Char.isDigit = true := by
    rw [hdata, List.all_append, h2, all_isDigit_replicate_zero]
    rfl
  rw [pyInt_of_digits _ hall, pyInt_of_digits _ h2, hdata,
    digitsVal?_replicate_zero k s.data h1 h2]

/-- Prepending a fixed run of zeros is injective on strings. -/
theorem padZeros_injective (k : Nat) :
    Function.Injective (padZeros k) := by
  intro s t h
  have h2 : List.replicate k '0' ++ s.data =
      List.replicate k '0' ++ t.data := congrArg String.data h
  have h3 := List.append_cancel_left h2
  cases s
  cases t
  exact congrArg String.mk h3

/-- First-appearance deduplication commutes with an injective relabeling. -/
theorem uniqueAux_map (f : String → String) (hf : Function.Injective f) :
    ∀ (l seen : List String),
      uniqueAux (l.map f) (seen.map f) = (uniqueAux l seen).map f := by
  intro l
  induction l with
  | nil =>
    intro seen
    rfl
  | cons s rest ih =>
    intro seen
    rw [List.map_cons, uniqueAux, uniqueAux]
    by_cases hs : s ∈ seen
    · rw [if_pos ((List.mem_map_of_injective hf).mpr hs), if_pos hs, ih]
    · rw [if_neg (fun hc => hs ((List.mem_map_of_injective hf).mp hc)),
        if_neg hs, List.map_cons]
      have h := ih (s :: seen)
      rw [List.map_cons] at h
      rw [h]

/-- The distinct values of a relabeled column are the relabeled distinct
values. -/
theorem uniqueValues_map (f : String → String)
    (hf : Function.Injective f) (l : List String) :
    uniqueValues (l.map f) = (uniqueValues l).map f :=
  uniqueAux_map f hf l []

/-- Insertion sorts only by count, so a key relabeling passes through. -/
theorem insertByCount_map_pad (pad : String → String) (p : String × Nat) :
    ∀ l, insertByCount (pad p.1, p.2) (l.map (fun q => (pad q.1, q.2))) =
      (insertByCount p l).map (fun q => (pad q.1, q.2)) := by
  intro l
  induction l with
  | nil => rfl
  | cons q qs ih =>
    simp only [List.map_cons, insertByCount]
    by_cases h : p.2 > q.2
    · rw [if_pos h, if_pos h]
      rfl
    · rw [if_neg h, if_neg h, List.map_cons, ih]

/-- The descending count sort commutes with a key relabeling. -/
theorem sortByCountDesc_map_pad (pad : String → String) :
    ∀ l, sortByCountDesc (l.map (fun q => (pad q.1, q.2))) =
      (sortByCountDesc l).map (fun q => (pad q.1, q.2)) := by
  intro l
  induction l with
  | nil => rfl
  | cons p ps ih =>
    simp only [List.map_cons, sortByCountDesc]
    rw [ih, insertByCount_map_pad]

/-- The frequency table of an injectively relabeled column is the relabeled
frequency table, with the same counts. -/
theorem value_counts_map_pad (pad : String → String)
    (hf : Function.Injective pad) (l : List String) :
    value_counts (l.map pad) =
      (value_counts l).map (fun q => (pad q.1, q.2)) := by
  unfold value_counts
  rw [uniqueValues_map pad hf, ← sortByCountDesc_map_pad, List.map_map,
    List.map_map]
  congr 1
  apply List.map_congr_left
  intro s _
  show (pad s, (l.map pad).count (pad s)) = (pad s, l.count s)
  rw [List.count_map_of_injective l pad hf]

/-- The integer cast of the frequency table is unchanged by a key
relabeling that preserves each key's integer value. -/
theorem astypeIntFreq_map_pad (pad : String → String) :
    ∀ fl : List (String × Nat),
      (∀ p ∈ fl, pyInt (pad p.1) = pyInt p.1) →
      astypeIntFreq (fl.map (fun q => (pad q.1, q.2))) = astypeIntFreq fl := by
  intro fl
  induction fl with
  | nil =>
    intro _
    rfl
  | cons p ps ih =>
    intro hpy
    obtain ⟨s, c⟩ := p
    have hp := hpy (s, c) (List.mem_cons_self _ _)
    simp only [List.map_cons, astypeIntFreq]
    rw [show (((s, c) : String × Nat).1) = s from rfl] at hp
    rw [hp, ih (fun q hq => hpy q (List.mem_cons_of_mem _ hq))]

/-- The frequency table of a one-value column. -/
theorem value_counts_singleton (s : String) :
    value_counts [s] = [(s, 1)] := by
  simp [value_counts, uniqueValues, uniqueAux, sortByCountDesc,
    insertByCount, List.count_cons_self]

/-- Claim C9: in the per-district aggregation both code columns are cast to
integers before the merge, so (1) a facility code joins a polygon key iff
the two are equal as integers — a single facility with code `s` of integer
value `n` contributes count 1 to polygon `u` exactly when `n = u` — and
(2) the whole per-district dataset is invariant under zero-padding of the
facility codes (digit codes prefixed with any run of zeros). -/
theorem C9_integer_join_semantics (k : Nat) (maps : List PdVal)
    (dfU : List String) (u n : Int) (s : String)
    (hs : pyInt s = some n)
    (hd : ∀ t ∈ dfU, t.data ≠ [] ∧ t.data.all Char.isDigit = true) :
    create_district_dataset [PdVal.intVal u] [s] =
      some ([(u, if n = u then 1 else 0)], [PdVal.intVal u]) ∧
    create_district_dataset maps (dfU.map (padZeros k)) =
      create_district_dataset maps dfU := by
  constructor
  · simp only [create_district_dataset]
    rw [value_counts_singleton]
    simp only [astypeIntCol, pdToInt, astypeIntFreq, hs]
    by_cases h : n = u
    · subst h
      simp [mergeRowsFor]
    · have hb : (n == u) = false := beq_eq_false_iff_ne.mpr h
      simp [mergeRowsFor, List.filter, hb, h]
  · have hpy : ∀ p ∈ value_counts dfU,
        pyInt (padZeros k p.1) = pyInt p.1 := by
      intro p hp
      have h := hd p.1 ((mem_value_counts dfU p).mp hp).1
      exact pyInt_padZeros k p.1 h.1 h.2
    simp only [create_district_dataset]
    rw [value_counts_map_pad (padZeros k) (padZeros_injective k),
      astypeIntFreq_map_pad (padZeros k) _ hpy]

/-- Witness for C9: the code "001501" joins the polygon key 1501 (equal as
integers), and padding the column ["150101"] with one zero leaves the
dataset unchanged. -/
theorem C9_integer_join_semantics_witness :
    create_district_dataset [PdVal.intVal 1501] ["001501"] =
      some ([(1501, 1)], [PdVal.intVal 1501]) ∧
    create_district_dataset [PdVal.intVal 150101]
        (["150101"].map (padZeros 1)) =
      create_district_dataset [PdVal.intVal 150101] ["150101"] := by
  have h := C9_integer_join_semantics 1 [PdVal.intVal 150101] ["150101"]
    1501 1501 "001501" (by decide) (by decide)
  exact ⟨h.1.trans (by decide), h.2⟩

end HospitalsPeru
